import Mathlib

/-!
# cloudflared: process entry point (`cmd/cloudflared/main.go`)

A shallow embedding of the orchestration code of `main.go`:

* `flags` and `commands` (the flag/command registry),
* `before` (the pre-action hook that layers a configuration source),
* `action` (the primary action run under crash capture),
* the two shutdown channels created by `main`.

Go values are embedded as follows.

* `error` is `Option Error` (`none` is `nil`).
* A slice is a `List`; `append(a, b...)` is `a ++ b`.
* A call that may panic returns an `Outcome`.
* `cli.Context` is the flag set of the parsed command line: the current value
  of every flag and the names the user set explicitly.
* Collaborators whose code is in other packages (`tunnel.Flags`,
  `access.Flags`, `tunnel.Commands`, `access.Commands`, `updater.Update`,
  `tunnel.StartServer`, `config.FindInputSourceContext`) are parameters of
  the functions that call them.
* The logger and the `raven` client are traces of the calls made on them.
-/

namespace Cloudflared

/-! ## Data model -/

/-- A non-nil Go `error` value, identified by its message. -/
structure Error where
  msg : String
  deriving DecidableEq, Repr

/-- The value a recovered `panic` carries. -/
structure PanicValue where
  msg : String
  deriving DecidableEq, Repr

/-- Result of a Go call that either returns normally or panics. -/
inductive Outcome (α : Type) where
  | ret (a : α)
  | panic (v : PanicValue)
  deriving DecidableEq, Repr

/-- The value type of a flag. -/
inductive ValueType where
  | string
  | bool
  | int
  deriving DecidableEq, Repr

/-- A flag value. -/
inductive Value where
  | str (s : String)
  | bool (b : Bool)
  | int (i : Int)
  deriving DecidableEq, Repr

/-- The value type a value belongs to. -/
def Value.type : Value → ValueType
  | .str _ => .string
  | .bool _ => .bool
  | .int _ => .int

/-- A flag descriptor (`cli.Flag`): name, aliases, value type and default. -/
structure Flag where
  Name : String
  Aliases : List String
  Kind : ValueType
  Default : Value
  deriving DecidableEq, Repr

/-- An opaque reference to an action callable (`cli.ActionFunc` stored in a
command descriptor). -/
structure ActionFunc where
  symbol : String
  deriving DecidableEq, Repr

/-- A command descriptor (`cli.Command`), with the fields `main.go` fills in. -/
structure Command where
  Name : String
  Action : ActionFunc
  Usage : String
  ArgsUsage : String
  Description : String
  deriving DecidableEq, Repr

/-! ## Flag/command registry -/

/-- The synthetic `update` command built by `commands` (main.go lines 62-72). -/
def updateCommand (updaterUpdate : ActionFunc) : Command :=
  { Name := "update"
    Action := updaterUpdate
    Usage := "Update the agent if a new version exists"
    ArgsUsage := " "
    Description :=
      "Looks for a new version on the official download server.\n" ++
      "If a new version exists, updates the agent binary and quits.\n" ++
      "Otherwise, does nothing.\n\n" ++
      "To determine if an update happened in a script, check for error code 64." }

/-- Go `commands()` (main.go lines 60-77). `updaterUpdate` is `updater.Update`,
`tunnelCommands` is the result of `tunnel.Commands()` and `accessCommands`
the result of `access.Commands()`. -/
def commands (updaterUpdate : ActionFunc) (tunnelCommands accessCommands : List Command) :
    List Command :=
  let cmds := [updateCommand updaterUpdate]
  let cmds := cmds ++ tunnelCommands
  let cmds := cmds ++ accessCommands
  cmds

/-- Go `flags()` (main.go lines 79-82). `tunnelFlags` is the result of
`tunnel.Flags()` and `accessFlags` the result of `access.Flags()`. -/
def flags (tunnelFlags accessFlags : List Flag) : List Flag :=
  let flags := tunnelFlags
  flags ++ accessFlags

/-- The names of a list of flags, in order. -/
def flagNames (fs : List Flag) : List String := fs.map (·.Name)

/-- The names of a list of commands, in order. -/
def commandNames (cs : List Command) : List String := cs.map (·.Name)

/-! ## Parsed command line, configuration source, logger -/

/-- The flag set of a parsed command line (`cli.Context`): the current value
of each flag (first binding of a name wins) and the names of the flags the
user set explicitly on the command line. -/
structure Context where
  values : List (String × Value)
  explicit : List String
  deriving DecidableEq, Repr

/-- Current value of the flag `name`, if the flag set has it. -/
def Context.lookup (c : Context) (name : String) : Option Value :=
  c.values.lookup name

/-- Go `c.IsSet(name)`: was the flag set explicitly by the user. -/
def Context.IsSet (c : Context) (name : String) : Bool :=
  decide (name ∈ c.explicit)

/-- Store `v` as the value of the flag `name`; the explicit-set marks are
not touched. -/
def Context.set (c : Context) (name : String) (v : Value) : Context :=
  { c with values := (name, v) :: c.values }

/-- Go `c.String(name)`: the value of a string flag, `""` when the flag is
missing or is not a string flag. -/
def Context.String (c : Context) (name : String) : String :=
  match c.lookup name with
  | some (.str s) => s
  | _ => ""

/-- A configuration source: a mapping from flag name to value. -/
structure InputSource where
  values : List (String × Value)
  deriving DecidableEq, Repr

/-- The value the source defines for `name`, if any. -/
def InputSource.lookup (s : InputSource) (name : String) : Option Value :=
  s.values.lookup name

/-- One `logger.WithError(err).Infof(...)` / `logger.Infof(...)` call. -/
structure LogEntry where
  withError : Option Error
  message : String
  deriving DecidableEq, Repr

/-! ## Pre-action hook -/

/-- What running the function returned by `before` leaves behind: the
(mutated) context, the log lines written and the returned `error`. -/
structure BeforeResult where
  context : Context
  log : List LogEntry
  err : Option Error
  deriving DecidableEq, Repr

/-- Go `before(flags)(context)` (main.go lines 97-113).
`FindInputSourceContext` is `config.FindInputSourceContext`, returning the
Go pair `(inputSource, err)`; `ApplyInputSourceValues` is
`altsrc.ApplyInputSourceValues`, returning the context it leaves and its
`error`. -/
def before (FindInputSourceContext : Context → Option InputSource × Option Error)
    (ApplyInputSourceValues : Context → InputSource → List Flag → Context × Option Error)
    (flags : List Flag) (context : Context) : BeforeResult :=
  match FindInputSourceContext context with
  | (_, some err) =>
    { context := context
      log := [⟨some err, "Cannot load configuration from " ++ context.String "config"⟩]
      err := some err }
  | (some inputSource, none) =>
    match ApplyInputSourceValues context inputSource flags with
    | (context1, some err) =>
      { context := context1
        log := [⟨some err, "Cannot apply configuration from " ++ context1.String "config"⟩]
        err := some err }
    | (context1, none) =>
      { context := context1
        log := [⟨none, "Applied configuration from " ++ context1.String "config"⟩]
        err := none }
  | (none, none) =>
    { context := context, log := [], err := none }

/-- The error of a layering step that cannot store a loaded value in a flag. -/
def ConfigApplyError (name : String) : Error :=
  ⟨"could not apply configuration value to flag " ++ name⟩

/-- Modelled from the spec: the per-flag step of `altsrc.ApplyInputSourceValues`
(vendored `gopkg.in/urfave/cli.v2/altsrc`, outside `main.go`).
Spec 4.2: "for every flag name present in the loaded mapping, if the
corresponding flag was not explicitly set by the user on the command line,
set it to the loaded value"; spec 7: layering can fail with a
`ConfigApplyError`, taken here to be a loaded value that is not of the
flag's value type. -/
def altsrc.ApplyInputSourceValue (context : Context) (inputSource : InputSource) (f : Flag) :
    Context × Option Error :=
  match inputSource.lookup f.Name with
  | none => (context, none)
  | some v =>
    if context.IsSet f.Name then (context, none)
    else if v.type = f.Kind then (context.set f.Name v, none)
    else (context, some (ConfigApplyError f.Name))

/-- Modelled from the spec: `altsrc.ApplyInputSourceValues` (vendored
`gopkg.in/urfave/cli.v2/altsrc`, outside `main.go`): the
application step of spec 4.2 run over the flag list in order, stopping at
the first flag whose step fails. -/
def altsrc.ApplyInputSourceValues (context : Context) (inputSource : InputSource)
    (flags : List Flag) : Context × Option Error :=
  match flags with
  | [] => (context, none)
  | f :: fs =>
    match altsrc.ApplyInputSourceValue context inputSource f with
    | (context1, some err) => (context1, some err)
    | (context1, none) => altsrc.ApplyInputSourceValues context1 inputSource fs

/-! ## Diagnostics sink and primary action -/

/-- A call that reached the `raven` client, in the order made. -/
inductive SinkEvent where
  | releaseSet (release : String)
  | tagsSet (tags : List (String × String))
  | panicCaptured (v : PanicValue) (tags : List (String × String))
  | errorCaptured (err : Error) (tags : List (String × String))
  deriving DecidableEq, Repr

/-- The diagnostics sink: the trace of what was sent to the `raven` client. -/
abbrev Sink := List SinkEvent

/-- Modelled from the spec: `raven.SetRelease` (vendored `raven-go`), recorded
in the sink trace. -/
def raven.SetRelease (release : String) (sink : Sink) : Sink :=
  sink ++ [.releaseSet release]

/-- Modelled from the spec: `raven.SetTagsContext` (vendored `raven-go`),
recorded in the sink trace. -/
def raven.SetTagsContext (tags : List (String × String)) (sink : Sink) : Sink :=
  sink ++ [.tagsSet tags]

/-- Modelled from the spec: `raven.CaptureError` (vendored `raven-go`): the
error is forwarded to the sink. -/
def raven.CaptureError (err : Error) (tags : List (String × String)) (sink : Sink) : Sink :=
  sink ++ [.errorCaptured err tags]

/-- Modelled from the spec: `raven.CapturePanic` (vendored `raven-go`): runs
the closure `f` on the variables it captures; a panic inside `f` is
intercepted (spec 4.5), forwarded to the sink, and handed back as the first
result, which is `none` when `f` returned normally. The closure gives the
captured variables as it leaves them and the panic it raised, if any. -/
def raven.CapturePanic {σ : Type} (f : σ → σ × Option PanicValue)
    (tags : List (String × String)) (captured : σ) (sink : Sink) :
    Option PanicValue × σ × Sink :=
  match f captured with
  | (captured1, none) => (none, captured1, sink)
  | (captured1, some v) => (some v, captured1, sink ++ [.panicCaptured v tags])

/-- State of a `chan struct{}` on which nothing is ever sent. -/
inductive Chan where
  | opened
  | closed
  deriving DecidableEq, Repr

/-- Go `make(chan struct{})`: a fresh channel is open. -/
def Chan.make : Chan := .opened

/-- Go builtin `close(c)`: closes an open channel; closing a closed channel
panics. -/
def Chan.close : Chan → Outcome Chan
  | .opened => .ret .closed
  | .closed => .panic ⟨"close of closed channel"⟩

/-- Two `close` calls in sequence, the second run only if the first
returned. -/
def Chan.closeTwice (c : Chan) : Outcome Chan :=
  match c.close with
  | .ret c1 => c1.close
  | .panic v => .panic v

/-- What an observer sees: a receive `<-c` completes exactly when the
channel is closed. -/
def Chan.recvReady : Chan → Bool
  | .opened => false
  | .closed => true

/-- The closure `func() { err = tunnel.StartServer(c, version, shutdownC,
graceShutdownC) }` of main.go line 89, as a function of the captured
variable `err`: the assignment happens only if `StartServer` returns. -/
def startServerClosure
    (StartServer : Context → String → Chan → Chan → Outcome (Option Error))
    (version : String) (shutdownC graceShutdownC : Chan) (c : Context)
    (err : Option Error) : Option Error × Option PanicValue :=
  match StartServer c version shutdownC graceShutdownC with
  | .ret r => (r, none)
  | .panic v => (err, some v)

/-- Go `action(version, shutdownC, graceShutdownC)(c)` (main.go lines 84-95).
`StartServer` is `tunnel.StartServer`. Returns the named result `err` and
the sink trace. -/
def action (StartServer : Context → String → Chan → Chan → Outcome (Option Error))
    (version : String) (shutdownC graceShutdownC : Chan) (c : Context) (sink : Sink) :
    Option Error × Sink :=
  let err : Option Error := none
  let tags := [("hostname", c.String "hostname")]
  let sink := raven.SetTagsContext tags sink
  let r := raven.CapturePanic
    (startServerClosure StartServer version shutdownC graceShutdownC c) [] err sink
  let err := r.2.1
  let sink := r.2.2
  match err with
  | some e => (some e, raven.CaptureError e [] sink)
  | none => (none, sink)

/-! ## Process entry point -/

/-- The collaborators `main` wires together. -/
structure Collaborators where
  tunnelFlags : List Flag
  accessFlags : List Flag
  tunnelCommands : List Command
  accessCommands : List Command
  updaterUpdate : ActionFunc
  StartServer : Context → String → Chan → Chan → Outcome (Option Error)
  FindInputSourceContext : Context → Option InputSource × Option Error
  ApplyInputSourceValues : Context → InputSource → List Flag → Context × Option Error
  year : Nat

/-- Constant `developerPortal` of main.go. -/
def developerPortal : String := "https://developers.cloudflare.com/argo-tunnel"

/-- Constant `licenseUrl` of main.go. -/
def licenseUrl : String := developerPortal ++ "/licence/"

/-- The fields of `cli.App` that `main` fills in. -/
structure App where
  Name : String
  Copyright : String
  Version : String
  Description : String
  Flags : List Flag
  Action : Context → Sink → Option Error × Sink
  Before : Context → BeforeResult
  Commands : List Command

/-- What `main` has built when it hands over to `runApp`. -/
structure MainState where
  shutdownC : Chan
  graceShutdownC : Chan
  sink : Sink
  app : App

/-- Go `main()` (main.go lines 33-58) up to the call of `runApp`, for the
build variables `Version` and `BuildTime`; `E.year` is `time.Now().Year()`.
The calls into other packages that do not touch the values built here
(`metrics.RegisterBuildInfo`, `tunnel.Init`) are not part of the embedding. -/
def main (E : Collaborators) (Version BuildTime : String) : MainState :=
  let sink := raven.SetRelease Version []
  let shutdownC := Chan.make
  let graceShutdownC := Chan.make
  let appFlags := flags E.tunnelFlags E.accessFlags
  { shutdownC := shutdownC
    graceShutdownC := graceShutdownC
    sink := sink
    app :=
      { Name := "cloudflared"
        Copyright := "(c) " ++ toString E.year ++ " Cloudflare Inc.\n" ++
          "   Use is subject to the license agreement at " ++ licenseUrl
        Version := Version ++ " (built " ++ BuildTime ++ ")"
        Description :=
          "cloudflared connects your machine (virtual or otherwise) to " ++
          "Cloudflare\x27s global network. \n" ++
          "\tYou can use it to route web traffic to this machine, " ++
          "configure powerful access control, and more."
        Flags := appFlags
        Action := action E.StartServer Version shutdownC graceShutdownC
        Before := before E.FindInputSourceContext E.ApplyInputSourceValues appFlags
        Commands := commands E.updaterUpdate E.tunnelCommands E.accessCommands } }

/-! ## Sample inputs -/

/-- The `hostname` string flag, default empty. -/
def hostnameFlag : Flag :=
  { Name := "hostname", Aliases := [], Kind := .string, Default := .str "" }

/-- The `url` string flag. -/
def urlFlag : Flag :=
  { Name := "url", Aliases := [], Kind := .string, Default := .str "http://localhost:8080" }

/-- The `retries` integer flag. -/
def retriesFlag : Flag :=
  { Name := "retries", Aliases := [], Kind := .int, Default := .int 5 }

/-- A sample contributed command named `login`. -/
def loginCommand : Command :=
  { Name := "login", Action := ⟨"access.login"⟩, Usage := "login", ArgsUsage := "",
    Description := "" }

/-- A sample contributed command named `hello`. -/
def helloCommand : Command :=
  { Name := "hello", Action := ⟨"tunnel.hello"⟩, Usage := "hello", ArgsUsage := "",
    Description := "" }

/-! ## Flag/command registry: theorems -/

theorem flags_eq_append (T A : List Flag) : flags T A = T ++ A := rfl

theorem commands_eq (u : ActionFunc) (T A : List Command) :
    commands u T A = updateCommand u :: (T ++ A) := by
  simp [commands]

/-- C7. `flags()` returns the concatenation of the tunnel flags `T` and the
access flags `A`: its length is `len(T) + len(A)`, a flag occurs in it
exactly when it occurs in `T` or in `A`, the first `len(T)` entries are `T`
and the rest is `A` (original order kept), and when the names of `T` and of
`A` are each distinct and the two name sets are disjoint, the merged list has
no duplicate name. -/
theorem flags_concat (T A : List Flag) :
    flags T A = T ++ A ∧
    (flags T A).length = T.length + A.length ∧
    (∀ f, f ∈ flags T A ↔ f ∈ T ∨ f ∈ A) ∧
    (flags T A).take T.length = T ∧
    (flags T A).drop T.length = A ∧
    ((flagNames T).Nodup → (flagNames A).Nodup →
      (∀ n, n ∈ flagNames T → n ∉ flagNames A) → (flagNames (flags T A)).Nodup) := by
  refine ⟨rfl, ?_, ?_, ?_, ?_, ?_⟩
  · simp [flags_eq_append]
  · intro f
    simp [flags_eq_append]
  · simp [flags_eq_append]
  · simp [flags_eq_append]
  · intro hT hA hdisj
    have hnames : flagNames (flags T A) = flagNames T ++ flagNames A := by
      simp [flags_eq_append, flagNames]
    rw [hnames]
    exact List.Nodup.append hT hA (fun n hn hn2 => hdisj n hn hn2)

/-- C7 at a concrete input: tunnel contributes `hostname` and `url`, access
contributes `retries`. -/
theorem flags_concat_witness :
    flags [hostnameFlag, urlFlag] [retriesFlag] = [hostnameFlag, urlFlag, retriesFlag] ∧
    (flagNames (flags [hostnameFlag, urlFlag] [retriesFlag])).Nodup :=
  ⟨(flags_concat [hostnameFlag, urlFlag] [retriesFlag]).1,
   (flags_concat [hostnameFlag, urlFlag] [retriesFlag]).2.2.2.2.2
     (by decide) (by decide) (by decide)⟩

/-- C8. `commands()` returns exactly `[update] ++ T ++ A`: its length is
`1 + len(T) + len(A)`, its first element is the synthetic command named
`update` whose action is `updater.Update`, and after it come the tunnel
commands and then the access commands, unchanged and in order. -/
theorem commands_layout (u : ActionFunc) (T A : List Command) :
    commands u T A = [updateCommand u] ++ T ++ A ∧
    (commands u T A).length = 1 + T.length + A.length ∧
    (commands u T A).head? = some (updateCommand u) ∧
    (updateCommand u).Name = "update" ∧
    (updateCommand u).Action = u ∧
    ((commands u T A).drop 1).take T.length = T ∧
    (commands u T A).drop (1 + T.length) = A := by
  refine ⟨rfl, ?_, ?_, rfl, rfl, ?_, ?_⟩
  · simp [commands_eq]
    omega
  · simp [commands_eq]
  · simp [commands_eq]
  · rw [commands_eq, Nat.add_comm 1 T.length]
    simp

/-- C6, as stated, fails: with `hostname` contributed by both subsystems
`flags` returns a merged list holding the name twice, and with `login`
contributed by both `commands` returns it twice. -/
theorem flags_collision_counterexample :
    "hostname" ∈ flagNames [hostnameFlag] ∧
    flags [hostnameFlag] [hostnameFlag] = [hostnameFlag, hostnameFlag] ∧
    (flagNames (flags [hostnameFlag] [hostnameFlag])).count "hostname" = 2 ∧
    "login" ∈ commandNames [loginCommand] ∧
    (commandNames (commands ⟨"updater.Update"⟩ [loginCommand] [loginCommand])).count "login"
      = 2 := by
  decide

/-- C6, amended. The registry does not detect name collisions: the merged
list holds a name as many times as the contributors supply it, so a flag name
occurring in both contributor lists occurs at least twice in the result of
`flags`, and a command name occurring in both occurs at least twice in the
result of `commands`. -/
theorem registry_keeps_collisions (u : ActionFunc) (T A : List Flag) (CT CA : List Command)
    (n : String) :
    (flagNames (flags T A)).count n = (flagNames T).count n + (flagNames A).count n ∧
    (n ∈ flagNames T → n ∈ flagNames A → 2 ≤ (flagNames (flags T A)).count n) ∧
    (n ∈ commandNames CT → n ∈ commandNames CA →
      2 ≤ (commandNames (commands u CT CA)).count n) := by
  have hf : (flagNames (flags T A)).count n = (flagNames T).count n + (flagNames A).count n := by
    simp [flags_eq_append, flagNames]
  refine ⟨hf, ?_, ?_⟩
  · intro hT hA
    have h1 := List.count_pos_iff.mpr hT
    have h2 := List.count_pos_iff.mpr hA
    omega
  · intro hT hA
    have h1 := List.count_pos_iff.mpr hT
    have h2 := List.count_pos_iff.mpr hA
    have hc : (commandNames (commands u CT CA)).count n
        = (commandNames [updateCommand u]).count n + (commandNames CT).count n
          + (commandNames CA).count n := by
      simp [commands_eq, commandNames, List.count_cons, List.count_append]
      omega
    omega

/-- C6 amended, at a concrete input. -/
theorem registry_keeps_collisions_witness :
    2 ≤ (flagNames (flags [hostnameFlag, urlFlag] [hostnameFlag])).count "hostname" ∧
    2 ≤ (commandNames
      (commands ⟨"updater.Update"⟩ [helloCommand, loginCommand] [loginCommand])).count "login" :=
  ⟨(registry_keeps_collisions ⟨"updater.Update"⟩ [hostnameFlag, urlFlag] [hostnameFlag]
      [helloCommand, loginCommand] [loginCommand] "hostname").2.1 (by decide) (by decide),
   (registry_keeps_collisions ⟨"updater.Update"⟩ [hostnameFlag, urlFlag] [hostnameFlag]
      [helloCommand, loginCommand] [loginCommand] "login").2.2 (by decide) (by decide)⟩

/-! ## Pre-action hook: theorems -/

theorem lookup_set (c : Context) (k n : String) (v : Value) :
    (c.set k v).lookup n = if n = k then some v else c.lookup n := by
  by_cases h : n = k
  · subst h
    simp [Context.set, Context.lookup, List.lookup]
  · have hb : (n == k) = false := by simpa using h
    simp [Context.set, Context.lookup, List.lookup, hb, h]

theorem isSet_set (c : Context) (k n : String) (v : Value) :
    (c.set k v).IsSet n = c.IsSet n := rfl

/-- One layering step leaves the explicit-set marks alone. -/
theorem applyValue_isSet (c : Context) (src : InputSource) (f : Flag) (n : String) :
    (altsrc.ApplyInputSourceValue c src f).1.IsSet n = c.IsSet n := by
  unfold altsrc.ApplyInputSourceValue
  cases src.lookup f.Name with
  | none => rfl
  | some v =>
    by_cases h1 : c.IsSet f.Name = true
    · simp [h1]
    · by_cases h2 : v.type = f.Kind
      · simp [h1, h2, isSet_set]
      · simp [h1, h2]

/-- One layering step leaves the value of an explicitly set flag alone. -/
theorem applyValue_keeps_explicit (c : Context) (src : InputSource) (f : Flag) (n : String)
    (hset : c.IsSet n = true) :
    (altsrc.ApplyInputSourceValue c src f).1.lookup n = c.lookup n := by
  unfold altsrc.ApplyInputSourceValue
  cases src.lookup f.Name with
  | none => rfl
  | some v =>
    by_cases h1 : c.IsSet f.Name = true
    · simp [h1]
    · by_cases h2 : v.type = f.Kind
      · have hne : n ≠ f.Name := by
          intro h
          rw [h] at hset
          exact h1 hset
        simp [h1, h2, lookup_set, hne]
      · simp [h1, h2]

/-- One layering step keeps a flag at the source's value once it has it. -/
theorem applyValue_keeps_loaded (c : Context) (src : InputSource) (f : Flag) (n : String)
    (v : Value) (hsrc : src.lookup n = some v) (hc : c.lookup n = some v) :
    (altsrc.ApplyInputSourceValue c src f).1.lookup n = some v := by
  unfold altsrc.ApplyInputSourceValue
  cases hl : src.lookup f.Name with
  | none => simpa using hc
  | some w =>
    by_cases h1 : c.IsSet f.Name = true
    · simpa [h1] using hc
    · by_cases h2 : w.type = f.Kind
      · by_cases hn : n = f.Name
        · have hw : w = v := by
            rw [hn, hl] at hsrc
            exact Option.some.inj hsrc
          subst hw
          simp [h1, h2, lookup_set, hn]
        · simp [h1, h2, lookup_set, hn, hc]
      · simpa [h1, h2] using hc

/-- A successful layering step on a flag that is not explicitly set and that
the source defines stores the source's value. -/
theorem applyValue_loads (c c1 : Context) (src : InputSource) (f : Flag) (v : Value)
    (hns : c.IsSet f.Name = false) (hsrc : src.lookup f.Name = some v)
    (hok : altsrc.ApplyInputSourceValue c src f = (c1, none)) :
    c1.lookup f.Name = some v := by
  unfold altsrc.ApplyInputSourceValue at hok
  rw [hsrc] at hok
  by_cases h2 : v.type = f.Kind
  · simp [hns, h2] at hok
    rw [← hok]
    simp [lookup_set]
  · simp [hns, h2] at hok

theorem applyValues_nil (c : Context) (src : InputSource) :
    altsrc.ApplyInputSourceValues c src [] = (c, none) := by
  simp [altsrc.ApplyInputSourceValues]

theorem applyValues_cons (c : Context) (src : InputSource) (f : Flag) (fs : List Flag) :
    altsrc.ApplyInputSourceValues c src (f :: fs) =
      match altsrc.ApplyInputSourceValue c src f with
      | (c1, some err) => (c1, some err)
      | (c1, none) => altsrc.ApplyInputSourceValues c1 src fs := by
  simp [altsrc.ApplyInputSourceValues]

/-- Layering leaves the explicit-set marks alone. -/
theorem applyValues_isSet (src : InputSource) (n : String) (fs : List Flag) :
    ∀ c : Context, (altsrc.ApplyInputSourceValues c src fs).1.IsSet n = c.IsSet n := by
  induction fs with
  | nil => intro c; simp [applyValues_nil]
  | cons f fs ih =>
    intro c
    rw [applyValues_cons]
    have hstep := applyValue_isSet c src f n
    rcases hres : altsrc.ApplyInputSourceValue c src f with ⟨c1, e⟩
    rw [hres] at hstep
    cases e with
    | some err => simpa using hstep
    | none =>
      simp only
      rw [ih c1]
      simpa using hstep

/-- Layering leaves the value of an explicitly set flag alone, whether it
succeeds or stops at a failing flag. -/
theorem applyValues_keeps_explicit (src : InputSource) (n : String) (fs : List Flag) :
    ∀ c : Context, c.IsSet n = true →
      (altsrc.ApplyInputSourceValues c src fs).1.lookup n = c.lookup n := by
  induction fs with
  | nil => intro c _; simp [applyValues_nil]
  | cons f fs ih =>
    intro c hset
    rw [applyValues_cons]
    have hstep := applyValue_keeps_explicit c src f n hset
    have hmark := applyValue_isSet c src f n
    rcases hres : altsrc.ApplyInputSourceValue c src f with ⟨c1, e⟩
    rw [hres] at hstep hmark
    cases e with
    | some err => simpa using hstep
    | none =>
      simp only
      have hset1 : c1.IsSet n = true := by
        have : c1.IsSet n = c.IsSet n := by simpa using hmark
        rw [this]; exact hset
      rw [ih c1 hset1]
      simpa using hstep

/-- Layering keeps a flag at the source's value once it has it. -/
theorem applyValues_keeps_loaded (src : InputSource) (n : String) (v : Value)
    (hsrc : src.lookup n = some v) (fs : List Flag) :
    ∀ c : Context, c.lookup n = some v →
      (altsrc.ApplyInputSourceValues c src fs).1.lookup n = some v := by
  induction fs with
  | nil => intro c hc; simpa [applyValues_nil] using hc
  | cons f fs ih =>
    intro c hc
    rw [applyValues_cons]
    have hstep := applyValue_keeps_loaded c src f n v hsrc hc
    rcases hres : altsrc.ApplyInputSourceValue c src f with ⟨c1, e⟩
    rw [hres] at hstep
    cases e with
    | some err => simpa using hstep
    | none =>
      simp only
      exact ih c1 (by simpa using hstep)

/-- Successful layering gives every listed flag that is not explicitly set
and that the source defines the source's value. -/
theorem applyValues_loads (src : InputSource) (F : Flag) (v : Value)
    (hsrc : src.lookup F.Name = some v) (fs : List Flag) :
    ∀ c c2 : Context, F ∈ fs → c.IsSet F.Name = false →
      altsrc.ApplyInputSourceValues c src fs = (c2, none) →
      c2.lookup F.Name = some v := by
  induction fs with
  | nil => intro c c2 hF; simp at hF
  | cons f fs ih =>
    intro c c2 hF hns hok
    rw [applyValues_cons] at hok
    have hmark := applyValue_isSet c src f F.Name
    rcases hres : altsrc.ApplyInputSourceValue c src f with ⟨c1, e⟩
    rw [hres] at hok hmark
    cases e with
    | some err => simp at hok
    | none =>
      simp only at hok
      have hns1 : c1.IsSet F.Name = false := by
        have : c1.IsSet F.Name = c.IsSet F.Name := by simpa using hmark
        rw [this]; exact hns
      rcases List.mem_cons.mp hF with hhead | htail
      · subst hhead
        have h1 : c1.lookup F.Name = some v := applyValue_loads c c1 src F v hns hsrc hres
        have h2 := applyValues_keeps_loaded src F.Name v hsrc fs c1 h1
        rw [hok] at h2
        simpa using h2
      · exact ih c1 c2 htail hns1 hok

/-- A parsed command line on which the user passed `--hostname=foo`; `url`
and `retries` are at their defaults. -/
def contextHostnameFoo : Context :=
  { values := [("hostname", .str "foo"), ("url", .str "http://localhost:8080"),
               ("retries", .int 5)]
    explicit := ["hostname"] }

/-- A parsed command line on which the user passed no flag. -/
def contextNoFlags : Context :=
  { values := [("hostname", .str ""), ("url", .str "http://localhost:8080"),
               ("retries", .int 5)]
    explicit := [] }

/-- A configuration source defining `hostname: bar`. -/
def sourceHostnameBar : InputSource :=
  { values := [("hostname", .str "bar")] }

/-- A configuration source whose `retries` entry is not an integer. -/
def sourceBadRetries : InputSource :=
  { values := [("hostname", .str "bar"), ("retries", .str "many")] }

/-- A resolver that finds the source `hostname: bar`. -/
def findHostnameBar : Context → Option InputSource × Option Error :=
  fun _ => (some sourceHostnameBar, none)

/-- A resolver that finds no configuration file. -/
def findNoSource : Context → Option InputSource × Option Error :=
  fun _ => (none, none)

/-- A resolver that fails on a malformed configuration file. -/
def findMalformed : Context → Option InputSource × Option Error :=
  fun _ => (none, some ⟨"config.yml: yaml: cannot unmarshal"⟩)

/-- The three-flag list used in the examples. -/
def sampleFlags : List Flag := flags [hostnameFlag, urlFlag] [retriesFlag]

/-- C1. Precedence invariant, with layering modelled from the spec: whatever
the resolver returns, a flag the user set explicitly has the same value after
`before` as before it, and is still marked as explicitly set. -/
theorem before_keeps_explicit (find : Context → Option InputSource × Option Error)
    (fs : List Flag) (ctx : Context) (name : String) (hset : ctx.IsSet name = true) :
    (before find altsrc.ApplyInputSourceValues fs ctx).context.lookup name = ctx.lookup name ∧
    (before find altsrc.ApplyInputSourceValues fs ctx).context.IsSet name = true := by
  unfold before
  rcases hfind : find ctx with ⟨_ | s, _ | err⟩
  · exact ⟨rfl, hset⟩
  · exact ⟨rfl, hset⟩
  · have hval := applyValues_keeps_explicit s name fs ctx hset
    have hmark := applyValues_isSet s name fs ctx
    rcases hres : altsrc.ApplyInputSourceValues ctx s fs with ⟨c1, _ | err⟩
    · rw [hres] at hval hmark
      simp only [hres]
      exact ⟨hval, by rw [← hset]; exact hmark⟩
    · rw [hres] at hval hmark
      simp only [hres]
      exact ⟨hval, by rw [← hset]; exact hmark⟩
  · exact ⟨rfl, hset⟩

/-- C1 at a concrete input: the user passed `--hostname=foo`, the source
defines `hostname: bar`, and `hostname` is still `foo` afterwards. -/
theorem before_keeps_explicit_witness :
    sourceHostnameBar.lookup "hostname" = some (.str "bar") ∧
    contextHostnameFoo.lookup "hostname" = some (.str "foo") ∧
    (before findHostnameBar altsrc.ApplyInputSourceValues sampleFlags
      contextHostnameFoo).context.lookup "hostname" = some (.str "foo") :=
  ⟨by decide, by decide,
   (before_keeps_explicit findHostnameBar sampleFlags contextHostnameFoo "hostname"
     (by decide)).1⟩

/-- C4. `before` returns a non-nil error exactly when the resolver fails, or
the resolver returns a source and layering fails. When the resolver fails,
the result is the resolver's error with the context untouched, whatever the
layering step would have done; otherwise, with a source, the result is the
error (or nil) and the context that layering leaves. -/
theorem before_error_origin (find : Context → Option InputSource × Option Error)
    (apply : Context → InputSource → List Flag → Context × Option Error)
    (fs : List Flag) (ctx : Context) :
    ((before find apply fs ctx).err ≠ none ↔
      ((find ctx).2 ≠ none ∨
        ∃ src, (find ctx).1 = some src ∧ (apply ctx src fs).2 ≠ none)) ∧
    (∀ e, (find ctx).2 = some e →
      (before find apply fs ctx).err = some e ∧
      (before find apply fs ctx).context = ctx) ∧
    (∀ src, find ctx = (some src, none) →
      (before find apply fs ctx).err = (apply ctx src fs).2 ∧
      (before find apply fs ctx).context = (apply ctx src fs).1) := by
  unfold before
  rcases hfind : find ctx with ⟨src, e⟩
  cases e with
  | some err => simp
  | none =>
    cases src with
    | none => simp
    | some s =>
      rcases hres : apply ctx s fs with ⟨c1, e1⟩
      cases e1 with
      | some err => simp [hres]
      | none => simp [hres]

/-- C4 at concrete inputs: a malformed file gives the resolver's error and
leaves `hostname` alone; a source with a badly typed `retries` gives the
layering error. -/
theorem before_error_origin_witness :
    (before findMalformed altsrc.ApplyInputSourceValues sampleFlags contextNoFlags).err
      = some ⟨"config.yml: yaml: cannot unmarshal"⟩ ∧
    (before findMalformed altsrc.ApplyInputSourceValues sampleFlags contextNoFlags).context
      = contextNoFlags ∧
    (before (fun _ => (some sourceBadRetries, none)) altsrc.ApplyInputSourceValues sampleFlags
      contextNoFlags).err = some (ConfigApplyError "retries") :=
  ⟨((before_error_origin findMalformed altsrc.ApplyInputSourceValues sampleFlags
      contextNoFlags).2.1 ⟨"config.yml: yaml: cannot unmarshal"⟩ rfl).1,
   ((before_error_origin findMalformed altsrc.ApplyInputSourceValues sampleFlags
      contextNoFlags).2.1 ⟨"config.yml: yaml: cannot unmarshal"⟩ rfl).2,
   ((before_error_origin (fun _ => (some sourceBadRetries, none))
      altsrc.ApplyInputSourceValues sampleFlags contextNoFlags).2.2 sourceBadRetries rfl).1.trans
      (by decide)⟩

/-- C9. With layering modelled from the spec: for a flag `F` of the merged
flag list that the user did not set explicitly, if the resolver returns a
source that defines `F` and `before` returns nil, then after `before` the
value of `F` is the source's value. -/
theorem before_loads_source (find : Context → Option InputSource × Option Error)
    (T A : List Flag) (ctx : Context) (src : InputSource) (F : Flag) (v : Value)
    (hF : F ∈ flags T A) (hns : ctx.IsSet F.Name = false)
    (hfind : (find ctx).1 = some src) (hdef : src.lookup F.Name = some v)
    (hnil : (before find altsrc.ApplyInputSourceValues (flags T A) ctx).err = none) :
    (before find altsrc.ApplyInputSourceValues (flags T A) ctx).context.lookup F.Name
      = some v := by
  unfold before at hnil ⊢
  rcases hres : find ctx with ⟨s, e⟩
  rw [hres] at hfind hnil
  simp only at hfind
  subst hfind
  cases e with
  | some err => simp at hnil
  | none =>
    simp only at hnil ⊢
    rcases hap : altsrc.ApplyInputSourceValues ctx src (flags T A) with ⟨c1, e1⟩
    rw [hap] at hnil
    cases e1 with
    | some err => simp at hnil
    | none =>
      simp only
      exact applyValues_loads src F v hdef (flags T A) ctx c1 hF hns hap

/-- C9 at a concrete input: the source defines `hostname: bar`, the user
passed no `--hostname`, and the resolved hostname is `bar`. -/
theorem before_loads_source_witness :
    contextNoFlags.String "hostname" = "" ∧
    (before findHostnameBar altsrc.ApplyInputSourceValues
      (flags [hostnameFlag, urlFlag] [retriesFlag]) contextNoFlags).context.lookup "hostname"
      = some (.str "bar") :=
  ⟨by decide,
   before_loads_source findHostnameBar [hostnameFlag, urlFlag] [retriesFlag] contextNoFlags
     sourceHostnameBar hostnameFlag (.str "bar") (by decide) (by decide) rfl (by decide)
     (by decide)⟩

/-- C10. When the resolver reports no source (nil source, nil error),
`before` returns nil, writes no log line and hands back the context as it
was, whatever the layering step would do; so every flag keeps its value and
its explicit-set mark. -/
theorem before_no_source (find : Context → Option InputSource × Option Error)
    (apply : Context → InputSource → List Flag → Context × Option Error)
    (fs : List Flag) (ctx : Context) (hfind : find ctx = (none, none)) :
    before find apply fs ctx = { context := ctx, log := [], err := none } ∧
    (∀ name, (before find apply fs ctx).context.lookup name = ctx.lookup name ∧
      (before find apply fs ctx).context.String name = ctx.String name ∧
      (before find apply fs ctx).context.IsSet name = ctx.IsSet name) := by
  have h : before find apply fs ctx = { context := ctx, log := [], err := none } := by
    unfold before
    rw [hfind]
  refine ⟨h, ?_⟩
  intro name
  rw [h]
  exact ⟨rfl, rfl, rfl⟩

/-- C10 at a concrete input: no configuration file, the user passed
`--hostname=foo`; `before` returns nil, hostname is `foo` and `retries`
keeps its default, even against a layering step that would overwrite
everything. -/
theorem before_no_source_witness :
    (before findNoSource (fun c _ _ => (c.set "hostname" (.str "overwritten"), none))
      sampleFlags contextHostnameFoo).err = none ∧
    (before findNoSource (fun c _ _ => (c.set "hostname" (.str "overwritten"), none))
      sampleFlags contextHostnameFoo).context.String "hostname" = "foo" ∧
    (before findNoSource (fun c _ _ => (c.set "hostname" (.str "overwritten"), none))
      sampleFlags contextHostnameFoo).context.lookup "retries" = some retriesFlag.Default :=
  ⟨congrArg BeforeResult.err
     (before_no_source findNoSource (fun c _ _ => (c.set "hostname" (.str "overwritten"), none))
       sampleFlags contextHostnameFoo rfl).1,
   (((before_no_source findNoSource
       (fun c _ _ => (c.set "hostname" (.str "overwritten"), none))
       sampleFlags contextHostnameFoo rfl).2 "hostname").2.1).trans (by decide),
   (((before_no_source findNoSource
       (fun c _ _ => (c.set "hostname" (.str "overwritten"), none))
       sampleFlags contextHostnameFoo rfl).2 "retries").1).trans (by decide)⟩

/-! ## Primary action: theorems -/

/-- A `tunnel.StartServer` that returns the error `listen failed`. -/
def startServerFails : Context → String → Chan → Chan → Outcome (Option Error) :=
  fun _ _ _ _ => .ret (some ⟨"listen failed"⟩)

/-- A `tunnel.StartServer` that panics. -/
def startServerPanics : Context → String → Chan → Chan → Outcome (Option Error) :=
  fun _ _ _ _ => .panic ⟨"nil pointer dereference"⟩

/-- C2. When `tunnel.StartServer` returns `r` without faulting, the function
returned by `action` returns exactly `r`. The sink then holds, after what it
held before, the tag map with the single entry `hostname` = value of the
hostname flag, followed by the captured error `r` when `r` is an error and
by nothing when `r` is nil. -/
theorem action_returns_result
    (StartServer : Context → String → Chan → Chan → Outcome (Option Error))
    (version : String) (shutdownC graceShutdownC : Chan) (c : Context) (sink : Sink)
    (r : Option Error) (hret : StartServer c version shutdownC graceShutdownC = .ret r) :
    (action StartServer version shutdownC graceShutdownC c sink).1 = r ∧
    (action StartServer version shutdownC graceShutdownC c sink).2 =
      sink ++ [SinkEvent.tagsSet [("hostname", c.String "hostname")]] ++
        (match r with
         | some e => [SinkEvent.errorCaptured e []]
         | none => []) := by
  cases r with
  | none =>
    simp [action, raven.CapturePanic, startServerClosure, hret, raven.SetTagsContext]
  | some e =>
    simp [action, raven.CapturePanic, startServerClosure, hret, raven.SetTagsContext,
      raven.CaptureError]

/-- C2 at a concrete input: `StartServer` returns `listen failed` for a
command line with `--hostname=foo`. -/
theorem action_returns_result_witness :
    action startServerFails "DEV" Chan.make Chan.make contextHostnameFoo [] =
      (some ⟨"listen failed"⟩,
       [SinkEvent.tagsSet [("hostname", "foo")],
        SinkEvent.errorCaptured ⟨"listen failed"⟩ []]) :=
  Prod.ext
    (action_returns_result startServerFails "DEV" Chan.make Chan.make contextHostnameFoo []
      (some ⟨"listen failed"⟩) rfl).1
    ((action_returns_result startServerFails "DEV" Chan.make Chan.make contextHostnameFoo []
      (some ⟨"listen failed"⟩) rfl).2.trans (by decide))

/-- C3, as stated, fails: when `tunnel.StartServer` panics, the function
returned by `action` returns nil. -/
theorem action_panic_counterexample :
    startServerPanics contextHostnameFoo "DEV" Chan.make Chan.make
      = .panic ⟨"nil pointer dereference"⟩ ∧
    (action startServerPanics "DEV" Chan.make Chan.make contextHostnameFoo []).1 = none := by
  decide

/-- C3, amended. When `tunnel.StartServer` panics, the function returned by
`action` intercepts the fault: it returns to its caller, the result is nil
(the named result `err` is never assigned), and the sink holds, after what
it held before, the hostname tag map followed by the captured panic; no
error is captured besides. -/
theorem action_panic_returns_nil
    (StartServer : Context → String → Chan → Chan → Outcome (Option Error))
    (version : String) (shutdownC graceShutdownC : Chan) (c : Context) (sink : Sink)
    (v : PanicValue) (hpanic : StartServer c version shutdownC graceShutdownC = .panic v) :
    action StartServer version shutdownC graceShutdownC c sink =
      (none, sink ++ [SinkEvent.tagsSet [("hostname", c.String "hostname")],
                      SinkEvent.panicCaptured v []]) := by
  simp [action, raven.CapturePanic, startServerClosure, hpanic, raven.SetTagsContext]

/-- C3 amended, at a concrete input. -/
theorem action_panic_returns_nil_witness :
    action startServerPanics "DEV" Chan.make Chan.make contextHostnameFoo [] =
      (none, [SinkEvent.tagsSet [("hostname", "foo")],
              SinkEvent.panicCaptured ⟨"nil pointer dereference"⟩ []]) :=
  (action_panic_returns_nil startServerPanics "DEV" Chan.make Chan.make contextHostnameFoo []
    ⟨"nil pointer dereference"⟩ rfl).trans (by decide)

/-! ## Wiring done by `main` -/

/-- The app built by `main` carries the merged flag list, runs `before` on
that same list, runs `action` on the two channels `main` created, and
carries the merged command list. -/
theorem main_wiring (E : Collaborators) (Version BuildTime : String) :
    (main E Version BuildTime).app.Flags = flags E.tunnelFlags E.accessFlags ∧
    (main E Version BuildTime).app.Before =
      before E.FindInputSourceContext E.ApplyInputSourceValues
        (flags E.tunnelFlags E.accessFlags) ∧
    (main E Version BuildTime).app.Action =
      action E.StartServer Version (main E Version BuildTime).shutdownC
        (main E Version BuildTime).graceShutdownC ∧
    (main E Version BuildTime).app.Commands =
      commands E.updaterUpdate E.tunnelCommands E.accessCommands :=
  ⟨rfl, rfl, rfl, rfl⟩

/-! ## Shutdown channels: theorems -/

/-- Sample collaborators for `main`. -/
def sampleCollaborators : Collaborators :=
  { tunnelFlags := [hostnameFlag, urlFlag]
    accessFlags := [retriesFlag]
    tunnelCommands := [helloCommand]
    accessCommands := [loginCommand]
    updaterUpdate := ⟨"updater.Update"⟩
    StartServer := startServerFails
    FindInputSourceContext := findNoSource
    ApplyInputSourceValues := altsrc.ApplyInputSourceValues
    year := 2018 }

/-- C5, as stated, fails: for both channels created by `main` the first
`close` succeeds and the second `close` panics, so closing twice does not
behave as closing once. -/
theorem close_twice_counterexample :
    (main sampleCollaborators "DEV" "unknown").shutdownC.close = .ret .closed ∧
    (main sampleCollaborators "DEV" "unknown").shutdownC.closeTwice
      = .panic ⟨"close of closed channel"⟩ ∧
    (main sampleCollaborators "DEV" "unknown").graceShutdownC.close = .ret .closed ∧
    (main sampleCollaborators "DEV" "unknown").graceShutdownC.closeTwice
      = .panic ⟨"close of closed channel"⟩ := by
  decide

/-- C5, amended. Both shutdown channels are created open by `main`; the
first `close` of either moves it to closed, after which a receive on it
completes; a second `close` is not a no-op but panics with
`close of closed channel`. -/
theorem shutdown_close_once (E : Collaborators) (Version BuildTime : String) :
    (main E Version BuildTime).shutdownC = Chan.opened ∧
    (main E Version BuildTime).graceShutdownC = Chan.opened ∧
    (main E Version BuildTime).shutdownC.recvReady = false ∧
    (main E Version BuildTime).graceShutdownC.recvReady = false ∧
    (main E Version BuildTime).shutdownC.close = .ret .closed ∧
    (main E Version BuildTime).graceShutdownC.close = .ret .closed ∧
    Chan.closed.recvReady = true ∧
    (main E Version BuildTime).shutdownC.closeTwice = .panic ⟨"close of closed channel"⟩ ∧
    (main E Version BuildTime).graceShutdownC.closeTwice
      = .panic ⟨"close of closed channel"⟩ :=
  ⟨rfl, rfl, rfl, rfl, rfl, rfl, rfl, rfl, rfl⟩

end Cloudflared
